import Mathlib

/-!
Shallow embedding of the core of the Polymarket market-making bot
(`breakeven_calculator.py`, `quote_generator.py`, `inventory_tracker.py`,
`models.py`, `websocket_manager.py`, `state_manager.py`).

Python floats are modelled as exact rationals (`ℚ`); Python's built-in
`round` (banker's rounding, round-half-to-even) is modelled exactly on `ℚ`.
Fallible deserialisation is modelled with `Option`.
-/

namespace Polymarket

/-- Model of Python's built-in `round(x)`: round half to even, returning an
integer. -/
def pyRound (x : ℚ) : ℤ :=
  let n := ⌊x⌋
  let f := x - n
  if f < 1/2 then n
  else if 1/2 < f then n + 1
  else if n % 2 = 0 then n else n + 1

/-- Model of Python's `round(x, k)`: round to `k` decimal places,
half to even. -/
def pyRoundTo (k : ℕ) (x : ℚ) : ℚ :=
  (pyRound (x * 10 ^ k) : ℚ) / 10 ^ k

/-- `models.Side` -/
inductive Side where
  | BUY
  | SELL
deriving DecidableEq, Repr

/-- `Side.value` (the string stored by the enum). -/
def Side.value : Side → String
  | .BUY => "BUY"
  | .SELL => "SELL"

/-- `Side(...)` enum construction from a string; raises in Python on an
unknown value, hence `Option`. -/
def Side.fromValue (s : String) : Option Side :=
  if s = "BUY" then some .BUY
  else if s = "SELL" then some .SELL
  else none

/-- `models.Outcome` -/
inductive Outcome where
  | YES
  | NO
deriving DecidableEq, Repr

/-- `Outcome.value` (the string stored by the enum). -/
def Outcome.value : Outcome → String
  | .YES => "YES"
  | .NO => "NO"

/-- `Outcome(...)` enum construction from a string. -/
def Outcome.fromValue (s : String) : Option Outcome :=
  if s = "YES" then some .YES
  else if s = "NO" then some .NO
  else none

/-- `breakeven_calculator.BreakevenCalculator.__init__` parameters. -/
structure BreakevenCalculator where
  breakeven_target : ℚ
  safety_margin : ℚ
deriving DecidableEq, Repr

namespace BreakevenCalculator

/-- `self.effective_target = breakeven_target - safety_margin` -/
def effective_target (c : BreakevenCalculator) : ℚ :=
  c.breakeven_target - c.safety_margin

/-- `BreakevenCalculator._calc_max_yes_bid` -/
def calc_max_yes_bid (c : BreakevenCalculator)
    (total_spend_yes total_qty_yes avg_cost_no new_qty : ℚ) : ℚ :=
  let max_avg_yes := c.effective_target - avg_cost_no
  if max_avg_yes ≤ 0 then 0
  else
    let new_total_qty := total_qty_yes + new_qty
    let max_total_spend := max_avg_yes * new_total_qty
    let max_new_spend := max_total_spend - total_spend_yes
    let max_price := max_new_spend / new_qty
    max (1/100) (min (99/100) max_price)

/-- `BreakevenCalculator._calc_max_no_bid` -/
def calc_max_no_bid (c : BreakevenCalculator)
    (total_spend_no total_qty_no avg_cost_yes new_qty : ℚ) : ℚ :=
  let max_avg_no := c.effective_target - avg_cost_yes
  if max_avg_no ≤ 0 then 0
  else
    let new_total_qty := total_qty_no + new_qty
    let max_total_spend := max_avg_no * new_total_qty
    let max_new_spend := max_total_spend - total_spend_no
    let max_price := max_new_spend / new_qty
    max (1/100) (min (99/100) max_price)

/-- `BreakevenCalculator.calculate_max_bid` -/
def calculate_max_bid (c : BreakevenCalculator) (outcome : Outcome)
    (total_spend_yes total_qty_yes avg_cost_no
     total_spend_no total_qty_no avg_cost_yes new_qty : ℚ) : ℚ :=
  if new_qty ≤ 0 then 0
  else
    match outcome with
    | .YES => c.calc_max_yes_bid total_spend_yes total_qty_yes avg_cost_no new_qty
    | .NO => c.calc_max_no_bid total_spend_no total_qty_no avg_cost_yes new_qty

/-- `BreakevenCalculator.calculate_projected_box_cost` -/
def calculate_projected_box_cost (_c : BreakevenCalculator) (outcome : Outcome)
    (bid_price new_qty total_spend_yes total_qty_yes
     total_spend_no total_qty_no : ℚ) : ℚ :=
  match outcome with
  | .YES =>
    let new_spend_yes := total_spend_yes + bid_price * new_qty
    let new_qty_yes := total_qty_yes + new_qty
    let new_avg_yes := if new_qty_yes > 0 then new_spend_yes / new_qty_yes else 0
    let new_avg_no := if total_qty_no > 0 then total_spend_no / total_qty_no else 0
    new_avg_yes + new_avg_no
  | .NO =>
    let new_spend_no := total_spend_no + bid_price * new_qty
    let new_qty_no := total_qty_no + new_qty
    let new_avg_no := if new_qty_no > 0 then new_spend_no / new_qty_no else 0
    let new_avg_yes := if total_qty_yes > 0 then total_spend_yes / total_qty_yes else 0
    new_avg_yes + new_avg_no

end BreakevenCalculator

/-- A Python float that may be `+∞` (`float("inf")`), as returned by the skew
ratio helpers; finite values are exact rationals. -/
inductive SkewVal where
  | fin (q : ℚ)
  | inf
deriving DecidableEq, Repr

/-- Float comparison `v > t` where `v` may be `+∞` and `t` is finite. -/
def SkewVal.gtB : SkewVal → ℚ → Bool
  | .inf, _ => true
  | .fin x, t => decide (t < x)

/-- Float comparison `v < t` where `v` may be `+∞` and `t` is finite. -/
def SkewVal.ltB : SkewVal → ℚ → Bool
  | .inf, _ => false
  | .fin x, t => decide (x < t)

/-- `models.Position` (dataclass fields). -/
structure Position where
  token_id : String
  outcome : Outcome
  quantity : ℚ
  total_cost : ℚ
deriving DecidableEq, Repr

namespace Position

/-- `Position.avg_cost` -/
def avg_cost (p : Position) : ℚ :=
  if p.quantity > 0 then p.total_cost / p.quantity else 0

/-- `Position.add_fill` -/
def add_fill (p : Position) (qty price : ℚ) : Position :=
  { p with total_cost := p.total_cost + qty * price,
           quantity := p.quantity + qty }

end Position

/-- `models.MarketPosition` (dataclass fields). -/
structure MarketPosition where
  condition_id : String
  yes_position : Position
  no_position : Position
deriving DecidableEq, Repr

namespace MarketPosition

/-- `MarketPosition.skew_ratio` -/
def skew_ratio (mp : MarketPosition) : SkewVal :=
  if mp.no_position.quantity = 0 then
    if mp.yes_position.quantity > 0 then .inf else .fin 1
  else .fin (mp.yes_position.quantity / mp.no_position.quantity)

/-- `MarketPosition.inverse_skew_ratio` -/
def inverse_skew_ratio (mp : MarketPosition) : SkewVal :=
  if mp.yes_position.quantity = 0 then
    if mp.no_position.quantity > 0 then .inf else .fin 1
  else .fin (mp.no_position.quantity / mp.yes_position.quantity)

/-- `MarketPosition.box_cost` -/
def box_cost (mp : MarketPosition) : ℚ :=
  mp.yes_position.avg_cost + mp.no_position.avg_cost

/-- `MarketPosition.total_usdc_spent` -/
def total_usdc_spent (mp : MarketPosition) : ℚ :=
  mp.yes_position.total_cost + mp.no_position.total_cost

end MarketPosition

/-- A Python `datetime.datetime` value (naive, as produced by
`datetime.utcnow()`): calendar fields plus microseconds. -/
structure DateTime where
  year : ℕ
  month : ℕ
  day : ℕ
  hour : ℕ
  minute : ℕ
  second : ℕ
  microsecond : ℕ
deriving DecidableEq, Repr

/-- Field ranges of a real `datetime.datetime` value. -/
def DateTime.Valid (d : DateTime) : Prop :=
  1 ≤ d.year ∧ d.year ≤ 9999 ∧ 1 ≤ d.month ∧ d.month ≤ 12 ∧
  1 ≤ d.day ∧ d.day ≤ 31 ∧ d.hour ≤ 23 ∧ d.minute ≤ 59 ∧
  d.second ≤ 59 ∧ d.microsecond < 1000000

instance (d : DateTime) : Decidable d.Valid := by
  unfold DateTime.Valid
  infer_instance

/-- `models.Fill` (dataclass fields). -/
structure Fill where
  order_id : String
  token_id : String
  outcome : Outcome
  side : Side
  price : ℚ
  size : ℚ
  timestamp : DateTime
  maker : Bool
deriving DecidableEq, Repr

namespace InventoryTracker

/-- The tracker's `self.positions` dict, modelled as a partial map. -/
def Positions := String → Option MarketPosition

/-- `InventoryTracker.is_yes_heavy` on an existing position
(`get_skew_ratio` returns the position's `skew_ratio`, compared with the
configured threshold). -/
def is_yes_heavy (skew_threshold : ℚ) (mp : MarketPosition) : Bool :=
  mp.skew_ratio.gtB skew_threshold

/-- `InventoryTracker.is_no_heavy` on an existing position. -/
def is_no_heavy (skew_threshold : ℚ) (mp : MarketPosition) : Bool :=
  mp.inverse_skew_ratio.gtB skew_threshold

/-- `InventoryTracker.get_adjustment_direction` on an existing position. -/
def get_adjustment_direction (skew_threshold : ℚ) (mp : MarketPosition) :
    ℤ × ℤ :=
  if is_yes_heavy skew_threshold mp then (-1, 1)
  else if is_no_heavy skew_threshold mp then (1, -1)
  else (0, 0)

/-- `InventoryTracker.record_fill`: no-op (with a warning) when the market is
unknown or the fill is not a BUY; otherwise the matching side's position is
updated in place by `Position.add_fill`. -/
def record_fill (positions : Positions) (condition_id : String) (fill : Fill) :
    Positions :=
  match positions condition_id with
  | none => positions
  | some position =>
    if fill.side ≠ Side.BUY then positions
    else
      let position' :=
        if fill.outcome = Outcome.YES then
          { position with
            yes_position := position.yes_position.add_fill fill.size fill.price }
        else
          { position with
            no_position := position.no_position.add_fill fill.size fill.price }
      fun k => if k = condition_id then some position' else positions k

end InventoryTracker

/-- `models.OrderBookLevel` (dataclass fields, after `__post_init__`). -/
structure OrderBookLevel where
  price : ℚ
  size : ℚ
deriving DecidableEq, Repr

/-- `OrderBookLevel(price, size)` construction: `__post_init__` rounds both
fields to 4 decimal places. -/
def OrderBookLevel.mk4 (price size : ℚ) : OrderBookLevel :=
  { price := pyRoundTo 4 price, size := pyRoundTo 4 size }

/-- `models.OrderBook` (the fields the quote/book pipeline reads; the
timestamp is irrelevant to the verified properties). -/
structure OrderBook where
  token_id : String
  bids : List OrderBookLevel
  asks : List OrderBookLevel
deriving DecidableEq, Repr

/-- `OrderBook.best_bid` -/
def OrderBook.best_bid (b : OrderBook) : Option ℚ :=
  b.bids.head?.map (·.price)

/-- `OrderBook.best_ask` -/
def OrderBook.best_ask (b : OrderBook) : Option ℚ :=
  b.asks.head?.map (·.price)

/-- `models.Quote` (dataclass fields). -/
structure Quote where
  token_id : String
  outcome : Outcome
  side : Side
  price : ℚ
  size : ℚ
  order_id : Option String
deriving DecidableEq, Repr

/-- `Quote.to_order_args` result: the dict
`{token_id, price, size, side-value}`. -/
structure OrderArgs where
  token_id : String
  price : ℚ
  size : ℚ
  side : String
deriving DecidableEq, Repr

/-- `Quote.to_order_args` -/
def Quote.to_order_args (q : Quote) : OrderArgs :=
  { token_id := q.token_id, price := q.price, size := q.size,
    side := q.side.value }

namespace QuoteGenerator

/-- The `TradingConfig` fields consumed by `QuoteGenerator`. -/
structure Config where
  tick_size : ℚ
  base_quote_size : ℚ
  skew_threshold : ℚ
  min_price : ℚ
  max_price : ℚ
deriving DecidableEq, Repr

/-- `QuoteGenerator._get_skew_ratio` -/
def get_skew_ratio (yes_qty no_qty : ℚ) : SkewVal :=
  if no_qty = 0 then
    if yes_qty > 0 then .inf else .fin 1
  else .fin (yes_qty / no_qty)

/-- `QuoteGenerator._get_skew_adjustments` -/
def get_skew_adjustments (cfg : Config) (skew_ratio : SkewVal) : ℤ × ℤ :=
  if skew_ratio.gtB cfg.skew_threshold then (-1, 1)
  else if skew_ratio.ltB (1 / cfg.skew_threshold) then (1, -1)
  else (0, 0)

/-- `QuoteGenerator._generate_single_quote` -/
def generate_single_quote (cfg : Config) (token_id : String)
    (outcome : Outcome) (orderbook : Option OrderBook)
    (tick_adjustment : ℤ) (max_price : ℚ) : Option Quote :=
  match orderbook with
  | none => none
  | some book =>
    match book.best_bid with
    | none => none
    | some best_bid =>
      let base_price := best_bid - cfg.tick_size
      let quote_price :=
        if tick_adjustment > 0 then best_bid
        else if tick_adjustment < 0 then
          base_price + tick_adjustment * cfg.tick_size
        else base_price
      let quote_price := (pyRound (quote_price / cfg.tick_size) : ℚ) * cfg.tick_size
      let quote_price :=
        if quote_price > max_price then
          (pyRound (max_price / cfg.tick_size) : ℚ) * cfg.tick_size
        else quote_price
      if quote_price < cfg.min_price ∨ quote_price > cfg.max_price then none
      else if quote_price ≤ 0 then none
      else some { token_id := token_id, outcome := outcome, side := .BUY,
                  price := pyRoundTo 4 quote_price,
                  size := cfg.base_quote_size, order_id := none }

end QuoteGenerator

namespace OrderBookManager

/-- Matching test used by `_update_level`:
`abs(level.price - price) < 0.0001`. -/
def price_matches (price : ℚ) (level : OrderBookLevel) : Bool :=
  decide (|level.price - price| < 1/10000)

/-- The list re-sort performed after inserting a new level
(`levels.sort(key=..., reverse=not ascending)`; Python's sort is stable, as
is `List.mergeSort`). -/
def sortSide (ascending : Bool) (levels : List OrderBookLevel) :
    List OrderBookLevel :=
  if ascending then levels.mergeSort (fun a b => decide (a.price ≤ b.price))
  else levels.mergeSort (fun a b => decide (b.price ≤ a.price))

/-- `OrderBookManager._update_level`: the Python loop scans for the first
level whose price is within `1e-4` of the update price; on a hit it removes
the level (`size <= 0`) or overwrites its size, and returns; if no level
matches and `size > 0`, a new (rounded) level is appended and the side is
re-sorted. -/
def update_level (levels : List OrderBookLevel) (price size : ℚ)
    (ascending : Bool) : List OrderBookLevel :=
  match levels.findIdx? (price_matches price) with
  | some i =>
    match levels[i]? with
    | some level =>
      if size ≤ 0 then levels.eraseIdx i
      else levels.set i { level with size := size }
    | none => levels
  | none =>
    if size > 0 then
      sortSide ascending (levels ++ [OrderBookLevel.mk4 price size])
    else levels

end OrderBookManager

/-- Decimal digit character: `chr(48 + n)` for `n < 10`. -/
def digitChar (n : ℕ) : Char := Char.ofNat (48 + n)

/-- Two-digit zero-padded decimal rendering (`%02d` for values below 100). -/
def pad2 (n : ℕ) : List Char := [digitChar (n / 10), digitChar (n % 10)]

/-- Four-digit zero-padded decimal rendering (`%04d` for values below 10000). -/
def pad4 (n : ℕ) : List Char :=
  [digitChar (n / 1000), digitChar (n / 100 % 10),
   digitChar (n / 10 % 10), digitChar (n % 10)]

/-- Six-digit zero-padded decimal rendering (`%06d` for values below 10^6). -/
def pad6 (n : ℕ) : List Char :=
  [digitChar (n / 100000), digitChar (n / 10000 % 10),
   digitChar (n / 1000 % 10), digitChar (n / 100 % 10),
   digitChar (n / 10 % 10), digitChar (n % 10)]

namespace DateTime

/-- Model of CPython's `datetime.isoformat()` for naive datetimes —
`YYYY-MM-DDTHH:MM:SS`, with `.ffffff` appended when the microsecond field is
non-zero. -/
def isoformatChars (d : DateTime) : List Char :=
  pad4 d.year ++ [ '-' ] ++ pad2 d.month ++ [ '-' ] ++ pad2 d.day ++
  [ 'T' ] ++ pad2 d.hour ++ [ ':' ] ++ pad2 d.minute ++ [ ':' ] ++
  pad2 d.second ++
  (if d.microsecond = 0 then [] else [ '.' ] ++ pad6 d.microsecond)

/-- `datetime.isoformat()` as a string. -/
def isoformat (d : DateTime) : String := ⟨isoformatChars d⟩

/-- Value of a decimal digit character, `none` otherwise. -/
def digit? (c : Char) : Option ℕ :=
  if c.isDigit then some (c.toNat - 48) else none

/-- Parse exactly two decimal digits. -/
def parse2 : List Char → Option (ℕ × List Char)
  | c1 :: c2 :: rest => do
    let d1 ← digit? c1
    let d2 ← digit? c2
    pure (d1 * 10 + d2, rest)
  | _ => none

/-- Parse exactly four decimal digits. -/
def parse4 : List Char → Option (ℕ × List Char)
  | c1 :: c2 :: c3 :: c4 :: rest => do
    let d1 ← digit? c1
    let d2 ← digit? c2
    let d3 ← digit? c3
    let d4 ← digit? c4
    pure (((d1 * 10 + d2) * 10 + d3) * 10 + d4, rest)
  | _ => none

/-- Parse exactly six decimal digits. -/
def parse6 : List Char → Option (ℕ × List Char)
  | c1 :: c2 :: c3 :: c4 :: c5 :: c6 :: rest => do
    let d1 ← digit? c1
    let d2 ← digit? c2
    let d3 ← digit? c3
    let d4 ← digit? c4
    let d5 ← digit? c5
    let d6 ← digit? c6
    pure (((((d1 * 10 + d2) * 10 + d3) * 10 + d4) * 10 + d5) * 10 + d6, rest)
  | _ => none

/-- Consume one expected character. -/
def expect (c : Char) : List Char → Option (List Char)
  | x :: rest => if x = c then some rest else none
  | [] => none

/-- Model of CPython's `datetime.fromisoformat()` restricted to the strings
`isoformat()` emits (fixed-width fields, optional microseconds); raises on
anything malformed, hence `Option`. -/
def fromisoformatChars (cs : List Char) : Option DateTime := do
  let (y, cs) ← parse4 cs
  let cs ← expect '-' cs
  let (mo, cs) ← parse2 cs
  let cs ← expect '-' cs
  let (da, cs) ← parse2 cs
  let cs ← expect 'T' cs
  let (h, cs) ← parse2 cs
  let cs ← expect ':' cs
  let (mi, cs) ← parse2 cs
  let cs ← expect ':' cs
  let (s, cs) ← parse2 cs
  match cs with
  | [] => pure ⟨y, mo, da, h, mi, s, 0⟩
  | '.' :: cs2 =>
    match parse6 cs2 with
    | some (us, []) => pure ⟨y, mo, da, h, mi, s, us⟩
    | _ => none
  | _ => none

/-- `datetime.fromisoformat` on a string. -/
def fromisoformat (s : String) : Option DateTime := fromisoformatChars s.data

end DateTime

/-- Shape of the dict produced by `Position.to_dict`. -/
structure PositionDict where
  token_id : String
  outcome : String
  quantity : ℚ
  total_cost : ℚ
deriving DecidableEq, Repr

/-- `Position.to_dict` -/
def Position.to_dict (p : Position) : PositionDict :=
  { token_id := p.token_id, outcome := p.outcome.value,
    quantity := p.quantity, total_cost := p.total_cost }

/-- `Position.from_dict` (`Outcome(...)` raises on an unknown string). -/
def Position.from_dict (d : PositionDict) : Option Position := do
  let o ← Outcome.fromValue d.outcome
  pure { token_id := d.token_id, outcome := o,
         quantity := d.quantity, total_cost := d.total_cost }

/-- Shape of the dict produced by `MarketPosition.to_dict`. -/
structure MarketPositionDict where
  condition_id : String
  yes_position : PositionDict
  no_position : PositionDict
deriving DecidableEq, Repr

/-- `MarketPosition.to_dict` -/
def MarketPosition.to_dict (mp : MarketPosition) : MarketPositionDict :=
  { condition_id := mp.condition_id,
    yes_position := mp.yes_position.to_dict,
    no_position := mp.no_position.to_dict }

/-- `MarketPosition.from_dict` -/
def MarketPosition.from_dict (d : MarketPositionDict) : Option MarketPosition := do
  let y ← Position.from_dict d.yes_position
  let n ← Position.from_dict d.no_position
  pure { condition_id := d.condition_id, yes_position := y, no_position := n }

/-- Shape of the dict produced by `Fill.to_dict` (the timestamp is the
ISO-8601 string). -/
structure FillDict where
  order_id : String
  token_id : String
  outcome : String
  side : String
  price : ℚ
  size : ℚ
  timestamp : String
  maker : Bool
deriving DecidableEq, Repr

/-- `Fill.to_dict` -/
def Fill.to_dict (f : Fill) : FillDict :=
  { order_id := f.order_id, token_id := f.token_id,
    outcome := f.outcome.value, side := f.side.value,
    price := f.price, size := f.size,
    timestamp := f.timestamp.isoformat, maker := f.maker }

/-- `Fill.from_dict` (`Outcome(...)`, `Side(...)` and
`datetime.fromisoformat` raise on malformed input). -/
def Fill.from_dict (d : FillDict) : Option Fill := do
  let o ← Outcome.fromValue d.outcome
  let s ← Side.fromValue d.side
  let t ← DateTime.fromisoformat d.timestamp
  pure { order_id := d.order_id, token_id := d.token_id, outcome := o,
         side := s, price := d.price, size := d.size, timestamp := t,
         maker := d.maker }

/-- Python list/dict comprehension over a fallible element function: the
whole comprehension raises as soon as one element does. -/
def mapOption (f : α → Option β) : List α → Option (List β)
  | [] => some []
  | a :: as => do
    let b ← f a
    let bs ← mapOption f as
    pure (b :: bs)

/-- `models.BotState` (dataclass fields). Python dicts are modelled as
association lists in insertion order. -/
structure BotState where
  positions : List (String × MarketPosition)
  open_orders : List (String × Quote)
  fills : List Fill
  total_maker_volume : ℚ
  total_rebates_estimate : ℚ
  last_updated : DateTime
deriving DecidableEq, Repr

/-- Shape of the dict produced by `BotState.to_dict` (the persisted JSON
document). -/
structure BotStateDict where
  positions : List (String × MarketPositionDict)
  open_orders : List (String × OrderArgs)
  fills : List FillDict
  total_maker_volume : ℚ
  total_rebates_estimate : ℚ
  last_updated : String
deriving DecidableEq, Repr

/-- `BotState.to_dict`: serialises positions and open orders entrywise,
keeps only the last 1000 fills (`fills[-1000:]`), and renders the timestamp
with `isoformat()`. -/
def BotState.to_dict (s : BotState) : BotStateDict :=
  { positions := s.positions.map (fun kv => (kv.1, kv.2.to_dict)),
    open_orders := s.open_orders.map (fun kv => (kv.1, kv.2.to_order_args)),
    fills := (s.fills.drop (s.fills.length - 1000)).map Fill.to_dict,
    total_maker_volume := s.total_maker_volume,
    total_rebates_estimate := s.total_rebates_estimate,
    last_updated := s.last_updated.isoformat }

/-- `BotState.from_dict`: deserialises positions and fills entrywise, always
restores `open_orders` empty, and parses the timestamp. -/
def BotState.from_dict (d : BotStateDict) : Option BotState := do
  let ps ← mapOption
    (fun kv => (MarketPosition.from_dict kv.2).map (fun mp => (kv.1, mp)))
    d.positions
  let fs ← mapOption Fill.from_dict d.fills
  let lu ← DateTime.fromisoformat d.last_updated
  pure { positions := ps, open_orders := [], fills := fs,
         total_maker_volume := d.total_maker_volume,
         total_rebates_estimate := d.total_rebates_estimate,
         last_updated := lu }

/-! ### Auxiliary definitions used by the verified properties -/

/-- Average cost of a side from its raw spend/quantity fields, as
`Position.avg_cost` computes it: `spend / qty` when `qty > 0`, else 0. -/
def avgOf (spend qty : ℚ) : ℚ := if qty > 0 then spend / qty else 0

/-- The pre-clamp price computed by `_calc_max_yes_bid` / `_calc_max_no_bid`:
`((effective_target - partner_avg) * (own_qty + new_qty) - own_spend) / new_qty`. -/
def BreakevenCalculator.raw_max_price (c : BreakevenCalculator)
    (own_spend own_qty partner_avg new_qty : ℚ) : ℚ :=
  ((c.effective_target - partner_avg) * (own_qty + new_qty) - own_spend) / new_qty

/-- Partner-side average cost, per outcome, from the raw state fields. -/
def partnerAvg (o : Outcome) (total_spend_yes total_qty_yes
    total_spend_no total_qty_no : ℚ) : ℚ :=
  match o with
  | .YES => avgOf total_spend_no total_qty_no
  | .NO => avgOf total_spend_yes total_qty_yes

/-- The pre-clamp bid price for either outcome from the raw state fields. -/
def rawBid (c : BreakevenCalculator) (o : Outcome)
    (total_spend_yes total_qty_yes total_spend_no total_qty_no new_qty : ℚ) : ℚ :=
  match o with
  | .YES => c.raw_max_price total_spend_yes total_qty_yes
      (avgOf total_spend_no total_qty_no) new_qty
  | .NO => c.raw_max_price total_spend_no total_qty_no
      (avgOf total_spend_yes total_qty_yes) new_qty

/-- The calculator with the default constructor arguments
(`breakeven_target=0.99`, `safety_margin=0.005`). -/
def defaultCalc : BreakevenCalculator := ⟨99/100, 5/1000⟩

/-! ### C3: range of `calculate_max_bid` -/

/-- Clamping branch of `_calc_max_yes_bid` / `_calc_max_no_bid`. -/
lemma clamp_mem (p : ℚ) :
    1/100 ≤ max (1/100) (min (99/100) p) ∧
    max (1/100) (min (99/100) p) ≤ 99/100 := by
  constructor
  · exact le_max_left _ _
  · exact max_le (by norm_num) (min_le_left _ _)

/-- The NO-side helper has the same body as the YES-side one (only the
argument roles differ). -/
lemma calc_max_no_bid_eq_yes (c : BreakevenCalculator) (sp q a nq : ℚ) :
    c.calc_max_no_bid sp q a nq = c.calc_max_yes_bid sp q a nq := rfl

/-- Zero/range dichotomy for the one-sided bid helper. -/
lemma calc_max_yes_bid_spec (c : BreakevenCalculator) (sp q a nq : ℚ) :
    (c.calc_max_yes_bid sp q a nq = 0 ↔ c.effective_target ≤ a) ∧
    (c.calc_max_yes_bid sp q a nq = 0 ∨
      (1/100 ≤ c.calc_max_yes_bid sp q a nq ∧
       c.calc_max_yes_bid sp q a nq ≤ 99/100)) := by
  simp only [BreakevenCalculator.calc_max_yes_bid]
  by_cases h : c.effective_target - a ≤ 0
  · rw [if_pos h]
    exact ⟨⟨fun _ => by linarith, fun _ => rfl⟩, Or.inl rfl⟩
  · rw [if_neg h]
    have hc := clamp_mem (((c.effective_target - a) * (q + nq) - sp) / nq)
    constructor
    · constructor
      · intro h0
        rw [h0] at hc
        norm_num at hc
      · intro ha
        exact absurd ha (by push_neg at h ⊢; linarith)
    · exact Or.inr hc

/-- C3: for all non-negative inventory inputs, `calculate_max_bid` returns 0
exactly when `new_qty ≤ 0` or the partner-side average is at least the
effective target; in every other case the result lies in `[0.01, 0.99]` —
so the result is always in `{0} ∪ [0.01, 0.99]`. -/
theorem calculate_max_bid_range (c : BreakevenCalculator) (o : Outcome)
    (tsy tqy acn tsn tqn acy nq : ℚ)
    (h1 : 0 ≤ tsy) (h2 : 0 ≤ tqy) (h3 : 0 ≤ acn) (h4 : 0 ≤ tsn)
    (h5 : 0 ≤ tqn) (h6 : 0 ≤ acy) :
    (c.calculate_max_bid o tsy tqy acn tsn tqn acy nq = 0 ↔
      (nq ≤ 0 ∨ c.effective_target ≤
        (match o with | .YES => acn | .NO => acy))) ∧
    (c.calculate_max_bid o tsy tqy acn tsn tqn acy nq = 0 ∨
      (1/100 ≤ c.calculate_max_bid o tsy tqy acn tsn tqn acy nq ∧
       c.calculate_max_bid o tsy tqy acn tsn tqn acy nq ≤ 99/100)) := by
  by_cases hq : nq ≤ 0
  · cases o <;> simp [BreakevenCalculator.calculate_max_bid, hq]
  · cases o
    · have hs := calc_max_yes_bid_spec c tsy tqy acn nq
      simp only [BreakevenCalculator.calculate_max_bid, hq, if_false, ite_false]
      exact ⟨by rw [hs.1]; simp [hq], hs.2⟩
    · have hs := calc_max_yes_bid_spec c tsn tqn acy nq
      simp only [BreakevenCalculator.calculate_max_bid, hq, if_false, ite_false,
        calc_max_no_bid_eq_yes]
      exact ⟨by rw [hs.1]; simp [hq], hs.2⟩

/-- Witness for C3 at the default calculator on an empty state,
`new_qty = 10`: the returned bid is non-zero and lies in `[0.01, 0.99]`. -/
theorem calculate_max_bid_range_witness :
    (defaultCalc.calculate_max_bid .YES 0 0 0 0 0 0 10 = 0 ↔
      ((10:ℚ) ≤ 0 ∨ defaultCalc.effective_target ≤ 0)) ∧
    (defaultCalc.calculate_max_bid .YES 0 0 0 0 0 0 10 = 0 ∨
      (1/100 ≤ defaultCalc.calculate_max_bid .YES 0 0 0 0 0 0 10 ∧
       defaultCalc.calculate_max_bid .YES 0 0 0 0 0 0 10 ≤ 99/100)) :=
  calculate_max_bid_range defaultCalc .YES 0 0 0 0 0 0 10
    le_rfl le_rfl le_rfl le_rfl le_rfl le_rfl

/-! ### C8: `calculate_max_bid` is antitone in the partner-side average -/

/-- Monotonicity of the one-sided bid helper in the partner average. -/
lemma calc_max_yes_bid_antitone (c : BreakevenCalculator) (sp q nq a₁ a₂ : ℚ)
    (hq : 0 ≤ q) (hnq : 0 < nq) (h12 : a₁ ≤ a₂) :
    c.calc_max_yes_bid sp q a₂ nq ≤ c.calc_max_yes_bid sp q a₁ nq := by
  simp only [BreakevenCalculator.calc_max_yes_bid]
  by_cases h2 : c.effective_target - a₂ ≤ 0
  · rw [if_pos h2]
    by_cases h1 : c.effective_target - a₁ ≤ 0
    · rw [if_pos h1]
    · rw [if_neg h1]
      have := clamp_mem (((c.effective_target - a₁) * (q + nq) - sp) / nq)
      linarith [this.1]
  · rw [if_neg h2, if_neg (by intro h1; exact h2 (by linarith))]
    have hnum : (c.effective_target - a₂) * (q + nq) - sp ≤
        (c.effective_target - a₁) * (q + nq) - sp := by nlinarith
    have hdiv : ((c.effective_target - a₂) * (q + nq) - sp) / nq ≤
        ((c.effective_target - a₁) * (q + nq) - sp) / nq :=
      div_le_div_of_nonneg_right hnum hnq.le
    exact max_le_max le_rfl (min_le_min le_rfl hdiv)

/-- C8: holding the own-side spend, own-side quantity and `new_qty > 0`
fixed, `calculate_max_bid` is monotonically non-increasing in the
partner-side average cost, for both outcomes. -/
theorem calculate_max_bid_antitone_partner (c : BreakevenCalculator)
    (tsy tqy tsn tqn acn acy nq a₁ a₂ : ℚ)
    (hqy : 0 ≤ tqy) (hqn : 0 ≤ tqn) (hnq : 0 < nq) (h12 : a₁ ≤ a₂) :
    c.calculate_max_bid .YES tsy tqy a₂ tsn tqn acy nq ≤
      c.calculate_max_bid .YES tsy tqy a₁ tsn tqn acy nq ∧
    c.calculate_max_bid .NO tsy tqy acn tsn tqn a₂ nq ≤
      c.calculate_max_bid .NO tsy tqy acn tsn tqn a₁ nq := by
  have hq : ¬ nq ≤ 0 := not_le.mpr hnq
  constructor
  · simp only [BreakevenCalculator.calculate_max_bid, hq, if_false, ite_false]
    exact calc_max_yes_bid_antitone c tsy tqy nq a₁ a₂ hqy hnq h12
  · simp only [BreakevenCalculator.calculate_max_bid, hq, if_false, ite_false,
      calc_max_no_bid_eq_yes]
    exact calc_max_yes_bid_antitone c tsn tqn nq a₁ a₂ hqn hnq h12

/-- Witness for C8: at the default calculator with an empty own side and
`new_qty = 10`, raising the partner average from 0.50 to 0.60 does not raise
the bid cap (on either outcome). -/
theorem calculate_max_bid_antitone_partner_witness :
    defaultCalc.calculate_max_bid .YES 0 0 (60/100) 0 0 0 10 ≤
      defaultCalc.calculate_max_bid .YES 0 0 (50/100) 0 0 0 10 ∧
    defaultCalc.calculate_max_bid .NO 0 0 0 0 0 (60/100) 10 ≤
      defaultCalc.calculate_max_bid .NO 0 0 0 0 0 (50/100) 10 :=
  calculate_max_bid_antitone_partner defaultCalc 0 0 0 0 0 0 10 (50/100) (60/100)
    le_rfl le_rfl (by norm_num) (by norm_num)

/-! ### C1: correctness of the returned bid against the projected box cost -/

/-- Counterexample to C1 as stated: with the default calculator, an empty
YES side, a NO side of 1 share at 0.98 (so `avg_cost_no = 0.98`; headroom
`0.005 > 0`) and `new_qty = 10`, the raw price `0.005` is clamped up to the
floor `0.01`, and a fill of 10 shares at the returned price `0.01` yields a
projected box cost of `0.99`, which exceeds `effective_target = 0.985` by
`0.005` — far beyond float tolerance — so the fill does not keep the box
cost below the effective target. -/
theorem calculate_max_bid_floor_clamp_counterexample :
    defaultCalc.calculate_max_bid .YES 0 0 (98/100) (98/100) 1 0 10 = 1/100 ∧
    defaultCalc.calculate_projected_box_cost .YES (1/100) 10 0 0 (98/100) 1
      = 99/100 ∧
    defaultCalc.effective_target = 985/1000 ∧
    ¬ (99/100 : ℚ) < 985/1000 := by
  refine ⟨?_, ?_, ?_, by norm_num⟩
  · norm_num [BreakevenCalculator.calculate_max_bid,
      BreakevenCalculator.calc_max_yes_bid, BreakevenCalculator.effective_target,
      defaultCalc]
  · norm_num [BreakevenCalculator.calculate_projected_box_cost]
  · norm_num [BreakevenCalculator.effective_target, defaultCalc]

/-- C1 (amended): when the partner side leaves positive headroom and the
pre-clamp price lies in `[0.01, 0.99]` (so neither clamp bites),
`calculate_max_bid` returns exactly the pre-clamp price `p`; a hypothetical
fill of `new_qty` at `p` makes the projected box cost exactly equal to
`effective_target` (hence not above it), and any price strictly greater
than `p` makes the projected box cost strictly exceed `effective_target`.
Here the average-cost inputs are tied to the spend/quantity fields the way
`Position.avg_cost` computes them. -/
theorem calculate_max_bid_unclamped_correct (c : BreakevenCalculator)
    (o : Outcome) (tsy tqy tsn tqn nq : ℚ)
    (hqy : 0 ≤ tqy) (hqn : 0 ≤ tqn) (hnq : 0 < nq)
    (hhead : 0 < c.effective_target - partnerAvg o tsy tqy tsn tqn)
    (hlo : 1/100 ≤ rawBid c o tsy tqy tsn tqn nq)
    (hhi : rawBid c o tsy tqy tsn tqn nq ≤ 99/100) :
    c.calculate_max_bid o tsy tqy (avgOf tsn tqn) tsn tqn (avgOf tsy tqy) nq
      = rawBid c o tsy tqy tsn tqn nq ∧
    c.calculate_projected_box_cost o (rawBid c o tsy tqy tsn tqn nq) nq
      tsy tqy tsn tqn = c.effective_target ∧
    ∀ p, rawBid c o tsy tqy tsn tqn nq < p →
      c.effective_target <
        c.calculate_projected_box_cost o p nq tsy tqy tsn tqn := by
  have hq : ¬ nq ≤ 0 := not_le.mpr hnq
  cases o
  all_goals
    simp only [partnerAvg, rawBid, BreakevenCalculator.raw_max_price] at hhead hlo hhi ⊢
  -- YES case
  · have hQ : 0 < tqy + nq := by linarith
    refine ⟨?_, ?_, ?_⟩
    · simp only [BreakevenCalculator.calculate_max_bid, hq, if_false, ite_false,
        BreakevenCalculator.calc_max_yes_bid]
      rw [if_neg (by linarith), min_eq_right hhi, max_eq_right hlo]
    · simp only [BreakevenCalculator.calculate_projected_box_cost]
      rw [if_pos hQ]
      have hif : (if tqn > 0 then tsn / tqn else 0) = avgOf tsn tqn := rfl
      rw [hif]
      have hkey : (tsy + ((c.effective_target - avgOf tsn tqn) * (tqy + nq)
          - tsy) / nq * nq) / (tqy + nq)
          = c.effective_target - avgOf tsn tqn := by
        field_simp
      rw [hkey]
      ring
    · intro p hp
      simp only [BreakevenCalculator.calculate_projected_box_cost]
      rw [if_pos hQ]
      rw [div_lt_iff hnq] at hp
      have hnum : (c.effective_target - avgOf tsn tqn) * (tqy + nq) <
          tsy + p * nq := by linarith
      have h2 : c.effective_target - avgOf tsn tqn <
          (tsy + p * nq) / (tqy + nq) := by
        rw [lt_div_iff hQ]
        linarith [hnum]
      simp only [avgOf] at h2 ⊢
      linarith
  -- NO case
  · have hQ : 0 < tqn + nq := by linarith
    refine ⟨?_, ?_, ?_⟩
    · simp only [BreakevenCalculator.calculate_max_bid, hq, if_false, ite_false,
        BreakevenCalculator.calc_max_no_bid]
      rw [if_neg (by linarith), min_eq_right hhi, max_eq_right hlo]
    · simp only [BreakevenCalculator.calculate_projected_box_cost]
      rw [if_pos hQ]
      have hif : (if tqy > 0 then tsy / tqy else 0) = avgOf tsy tqy := rfl
      rw [hif]
      have hkey : (tsn + ((c.effective_target - avgOf tsy tqy) * (tqn + nq)
          - tsn) / nq * nq) / (tqn + nq)
          = c.effective_target - avgOf tsy tqy := by
        field_simp
      rw [hkey]
      ring
    · intro p hp
      simp only [BreakevenCalculator.calculate_projected_box_cost]
      rw [if_pos hQ]
      rw [div_lt_iff hnq] at hp
      have hnum : (c.effective_target - avgOf tsy tqy) * (tqn + nq) <
          tsn + p * nq := by linarith
      have h2 : c.effective_target - avgOf tsy tqy <
          (tsn + p * nq) / (tqn + nq) := by
        rw [lt_div_iff hQ]
        linarith [hnum]
      simp only [avgOf] at h2 ⊢
      linarith

/-- Witness for the amended C1: default calculator, empty state,
`new_qty = 10`: the bid is the unclamped `0.985`, a fill there prices the
box exactly at the effective target, and a fill at `1` exceeds it. -/
theorem calculate_max_bid_unclamped_correct_witness :
    defaultCalc.calculate_max_bid .YES 0 0 (avgOf 0 0) 0 0 (avgOf 0 0) 10
      = rawBid defaultCalc .YES 0 0 0 0 10 ∧
    defaultCalc.calculate_projected_box_cost .YES
      (rawBid defaultCalc .YES 0 0 0 0 10) 10 0 0 0 0
      = defaultCalc.effective_target ∧
    defaultCalc.effective_target <
      defaultCalc.calculate_projected_box_cost .YES 1 10 0 0 0 0 := by
  obtain ⟨h1, h2, h3⟩ := calculate_max_bid_unclamped_correct defaultCalc .YES
    0 0 0 0 10 le_rfl le_rfl (by norm_num)
    (by norm_num [partnerAvg, avgOf, BreakevenCalculator.effective_target,
      defaultCalc])
    (by norm_num [rawBid, BreakevenCalculator.raw_max_price, avgOf,
      BreakevenCalculator.effective_target, defaultCalc])
    (by norm_num [rawBid, BreakevenCalculator.raw_max_price, avgOf,
      BreakevenCalculator.effective_target, defaultCalc])
  exact ⟨h1, h2, h3 1 (by norm_num [rawBid, BreakevenCalculator.raw_max_price,
    avgOf, BreakevenCalculator.effective_target, defaultCalc])⟩

/-! ### C2: breakeven cap enforcement in `_generate_single_quote` -/

/-- Quote-generator configuration with the default trading parameters
(`tick_size=0.01`, `base_quote_size=5`, `skew_threshold=1.2`,
`min_price=0.20`, `max_price=0.80`). -/
def defaultQGConfig : QuoteGenerator.Config := ⟨1/100, 5, 6/5, 1/5, 4/5⟩

/-- An order book whose best bid is 0.70. -/
def bookAt70 : OrderBook := ⟨"tok", [⟨70/100, 5⟩], []⟩

/-- C2 evaluated at the failing input: with tick 0.01, best bid 0.70, no
skew adjustment and breakeven cap `p_cap = 0.656`, the candidate price 0.69
exceeds the cap, and the code replaces it with
`round(p_cap / tick) * tick = 0.66` — Python's banker's `round`, not the
`floor` the spec prescribes (`floor` would give 0.65). The emitted quote's
price `0.66` is strictly greater than the cap `0.656`, so the clamped quote
violates the breakeven bound its own comment claims to enforce. -/
theorem generate_single_quote_cap_violation :
    QuoteGenerator.generate_single_quote defaultQGConfig "tok" .YES
      (some bookAt70) 0 (656/1000)
      = some ⟨"tok", .YES, .BUY, 66/100, 5, none⟩ ∧
    (656/1000 : ℚ) < 66/100 ∧
    (⌊(656/1000 : ℚ) / (1/100)⌋ : ℚ) * (1/100) = 65/100 := by
  refine ⟨?_, by norm_num, by norm_num⟩
  have hbb : bookAt70.best_bid = some (70/100) := rfl
  simp only [QuoteGenerator.generate_single_quote, hbb, defaultQGConfig]
  norm_num [pyRound, pyRoundTo]

/-! ### C7 and C10: skew classification and agreement of the two skew paths -/

/-- A market position holding the given YES/NO quantities (the skew
functions read nothing else). -/
def mpOf (yes no : ℚ) : MarketPosition :=
  ⟨"", ⟨"", .YES, yes, 0⟩, ⟨"", .NO, no, 0⟩⟩

/-- The skew ratio of a quantities-only position, by cases. -/
lemma skew_ratio_mpOf (yes no : ℚ) :
    (mpOf yes no).skew_ratio =
      (if no = 0 then (if yes > 0 then .inf else .fin 1)
       else .fin (yes / no)) := rfl

/-- The inverse skew ratio of a quantities-only position, by cases. -/
lemma inverse_skew_ratio_mpOf (yes no : ℚ) :
    (mpOf yes no).inverse_skew_ratio =
      (if yes = 0 then (if no > 0 then .inf else .fin 1)
       else .fin (no / yes)) := rfl

/-- Characterisation of `is_yes_heavy` over raw quantities. -/
lemma is_yes_heavy_iff (θ yes no : ℚ) (hn : 0 ≤ no) (hθ : 1 < θ) :
    InventoryTracker.is_yes_heavy θ (mpOf yes no) = true ↔
      ((no = 0 ∧ 0 < yes) ∨ (0 < no ∧ θ < yes / no)) := by
  simp only [InventoryTracker.is_yes_heavy, skew_ratio_mpOf]
  by_cases h : no = 0
  · subst h
    by_cases hy0 : yes > 0
    · rw [if_pos rfl, if_pos hy0]
      simp only [SkewVal.gtB, true_iff]
      exact Or.inl ⟨by norm_num, hy0⟩
    · rw [if_pos rfl, if_neg hy0]
      simp only [SkewVal.gtB, decide_eq_true_eq]
      constructor
      · intro h1
        linarith
      · rintro (⟨-, h2⟩ | ⟨h2, -⟩)
        · exact absurd h2 hy0
        · exact absurd h2 (lt_irrefl 0)
  · have hn' : 0 < no := lt_of_le_of_ne hn (Ne.symm h)
    rw [if_neg h]
    simp only [SkewVal.gtB, decide_eq_true_eq]
    constructor
    · intro h1
      exact Or.inr ⟨hn', h1⟩
    · rintro (⟨h2, -⟩ | ⟨-, h2⟩)
      · exact absurd h2 h
      · exact h2

/-- Characterisation of `is_no_heavy` over raw quantities. -/
lemma is_no_heavy_iff (θ yes no : ℚ) (hy : 0 ≤ yes) (hθ : 1 < θ) :
    InventoryTracker.is_no_heavy θ (mpOf yes no) = true ↔
      ((yes = 0 ∧ 0 < no) ∨ (0 < yes ∧ θ < no / yes)) := by
  simp only [InventoryTracker.is_no_heavy, inverse_skew_ratio_mpOf]
  by_cases h : yes = 0
  · subst h
    by_cases hn0 : no > 0
    · rw [if_pos rfl, if_pos hn0]
      simp only [SkewVal.gtB, true_iff]
      exact Or.inl ⟨by norm_num, hn0⟩
    · rw [if_pos rfl, if_neg hn0]
      simp only [SkewVal.gtB, decide_eq_true_eq]
      constructor
      · intro h1
        linarith
      · rintro (⟨-, h2⟩ | ⟨h2, -⟩)
        · exact absurd h2 hn0
        · exact absurd h2 (lt_irrefl 0)
  · have hy' : 0 < yes := lt_of_le_of_ne hy (Ne.symm h)
    rw [if_neg h]
    simp only [SkewVal.gtB, decide_eq_true_eq]
    constructor
    · intro h1
      exact Or.inr ⟨hy', h1⟩
    · rintro (⟨h2, -⟩ | ⟨-, h2⟩)
      · exact absurd h2 h
      · exact h2

/-- With a threshold above 1, a position cannot be YES-heavy and NO-heavy at
once. -/
lemma not_both_heavy (θ yes no : ℚ) (hy : 0 ≤ yes) (hn : 0 ≤ no) (hθ : 1 < θ) :
    ¬ (((no = 0 ∧ 0 < yes) ∨ (0 < no ∧ θ < yes / no)) ∧
       ((yes = 0 ∧ 0 < no) ∨ (0 < yes ∧ θ < no / yes))) := by
  rintro ⟨⟨hno0, hyes⟩ | ⟨hno, hr1⟩, ⟨hyes0, hno'⟩ | ⟨hyes', hr2⟩⟩
  · rw [hyes0] at hyes
    exact lt_irrefl 0 hyes
  · rw [hno0, zero_div] at hr2
    linarith
  · rw [hyes0, zero_div] at hr1
    linarith
  · rw [lt_div_iff hno] at hr1
    rw [lt_div_iff hyes'] at hr2
    nlinarith

/-- C7: for non-negative quantities and a threshold above 1, the adjustment
pair is `(-1, 1)` exactly in the YES-heavy cases (ratio above the threshold,
including YES positive with NO zero), `(1, -1)` in the symmetric NO-heavy
cases, `(0, 0)` otherwise (including both zero), and the function is
antisymmetric under swapping the two quantities. -/
theorem get_adjustment_direction_spec (θ yes no : ℚ)
    (hy : 0 ≤ yes) (hn : 0 ≤ no) (hθ : 1 < θ) :
    (((no = 0 ∧ 0 < yes) ∨ (0 < no ∧ θ < yes / no)) →
      InventoryTracker.get_adjustment_direction θ (mpOf yes no) = (-1, 1)) ∧
    (((yes = 0 ∧ 0 < no) ∨ (0 < yes ∧ θ < no / yes)) →
      InventoryTracker.get_adjustment_direction θ (mpOf yes no) = (1, -1)) ∧
    ((¬ ((no = 0 ∧ 0 < yes) ∨ (0 < no ∧ θ < yes / no)) ∧
      ¬ ((yes = 0 ∧ 0 < no) ∨ (0 < yes ∧ θ < no / yes))) →
      InventoryTracker.get_adjustment_direction θ (mpOf yes no) = (0, 0)) ∧
    InventoryTracker.get_adjustment_direction θ (mpOf yes no) =
      (- (InventoryTracker.get_adjustment_direction θ (mpOf no yes)).1,
       - (InventoryTracker.get_adjustment_direction θ (mpOf no yes)).2) := by
  have hyh := is_yes_heavy_iff θ yes no hn hθ
  have hnh := is_no_heavy_iff θ yes no hy hθ
  have hx : ¬ (InventoryTracker.is_yes_heavy θ (mpOf yes no) = true ∧
      InventoryTracker.is_no_heavy θ (mpOf yes no) = true) := by
    rw [hyh, hnh]
    exact not_both_heavy θ yes no hy hn hθ
  have e1 : InventoryTracker.is_no_heavy θ (mpOf no yes) =
      InventoryTracker.is_yes_heavy θ (mpOf yes no) := rfl
  have e2 : InventoryTracker.is_yes_heavy θ (mpOf no yes) =
      InventoryTracker.is_no_heavy θ (mpOf yes no) := rfl
  refine ⟨?_, ?_, ?_, ?_⟩
  · intro hc
    have hb1 := hyh.mpr hc
    simp [InventoryTracker.get_adjustment_direction, hb1]
  · intro hc
    have hb2 := hnh.mpr hc
    have hb1 : ¬ InventoryTracker.is_yes_heavy θ (mpOf yes no) = true :=
      fun h => hx ⟨h, hb2⟩
    simp only [InventoryTracker.get_adjustment_direction, if_neg hb1, if_pos hb2]
  · rintro ⟨hc1, hc2⟩
    have hb1 : ¬ InventoryTracker.is_yes_heavy θ (mpOf yes no) = true :=
      fun h => hc1 (hyh.mp h)
    have hb2 : ¬ InventoryTracker.is_no_heavy θ (mpOf yes no) = true :=
      fun h => hc2 (hnh.mp h)
    simp only [InventoryTracker.get_adjustment_direction, if_neg hb1, if_neg hb2]
  · simp only [InventoryTracker.get_adjustment_direction, e1, e2]
    by_cases hb1 : InventoryTracker.is_yes_heavy θ (mpOf yes no) = true
    · have hb2 : ¬ InventoryTracker.is_no_heavy θ (mpOf yes no) = true :=
        fun h => hx ⟨hb1, h⟩
      simp [hb1, hb2]
    · by_cases hb2 : InventoryTracker.is_no_heavy θ (mpOf yes no) = true
      · simp [hb1, hb2]
      · simp [hb1, hb2]

/-- Witness for C7 at threshold 1.2 with 15 YES / 10 NO shares (YES-heavy):
the adjustment is `(-1, 1)`, and the swapped position gets the negated
pair. -/
theorem get_adjustment_direction_spec_witness :
    InventoryTracker.get_adjustment_direction (6/5) (mpOf 15 10) = (-1, 1) ∧
    InventoryTracker.get_adjustment_direction (6/5) (mpOf 15 10) =
      (- (InventoryTracker.get_adjustment_direction (6/5) (mpOf 10 15)).1,
       - (InventoryTracker.get_adjustment_direction (6/5) (mpOf 10 15)).2) := by
  obtain ⟨h1, -, -, h4⟩ := get_adjustment_direction_spec (6/5) 15 10
    (by norm_num) (by norm_num) (by norm_num)
  exact ⟨h1 (Or.inr ⟨by norm_num, by norm_num⟩), h4⟩

/-- The Bool tested by the generator's second branch coincides with
`is_no_heavy`. -/
lemma ltB_inv_eq_is_no_heavy (θ yes no : ℚ) (hy : 0 ≤ yes) (hn : 0 ≤ no)
    (hθ : 0 < θ) :
    (QuoteGenerator.get_skew_ratio yes no).ltB (1/θ) =
      InventoryTracker.is_no_heavy θ (mpOf yes no) := by
  have hq : QuoteGenerator.get_skew_ratio yes no =
      (if no = 0 then (if yes > 0 then .inf else .fin 1)
       else .fin (yes / no)) := rfl
  simp only [InventoryTracker.is_no_heavy, inverse_skew_ratio_mpOf, hq]
  by_cases h0 : no = 0
  · subst h0
    by_cases hy0 : yes > 0
    · have hy' : ¬ yes = 0 := by linarith
      rw [if_pos rfl, if_pos hy0, if_neg hy']
      show false = decide (θ < 0 / yes)
      rw [zero_div]
      symm
      simp only [decide_eq_false_iff_not]
      linarith
    · have hy0' : yes = 0 := le_antisymm (not_lt.mp hy0) hy
      subst hy0'
      rw [if_pos rfl, if_neg hy0]
      show decide ((1:ℚ) < 1/θ) = decide (θ < 1)
      rw [decide_eq_decide, lt_div_iff hθ, one_mul]
  · have hn' : 0 < no := lt_of_le_of_ne hn (Ne.symm h0)
    by_cases hy0 : yes = 0
    · subst hy0
      rw [if_neg h0, if_pos rfl, if_pos hn']
      show decide ((0:ℚ) / no < 1/θ) = true
      rw [zero_div, decide_eq_true_eq]
      positivity
    · have hy' : 0 < yes := lt_of_le_of_ne hy (Ne.symm hy0)
      rw [if_neg h0, if_neg hy0]
      show decide (yes / no < 1/θ) = decide (θ < no / yes)
      rw [decide_eq_decide, div_lt_div_iff hn' hθ, one_mul, lt_div_iff hy']
      constructor <;> intro h <;> linarith

/-- C10: for non-negative quantities and a positive threshold, the quote
generator's skew pipeline (`_get_skew_adjustments` over `_get_skew_ratio`,
which tests `skew < 1/threshold`) computes exactly the same adjustment pair
as the inventory tracker's `get_adjustment_direction` (which tests the
inverse ratio against the threshold), including the zero-quantity
conventions. -/
theorem skew_adjustments_agree (cfg : QuoteGenerator.Config) (yes no : ℚ)
    (hy : 0 ≤ yes) (hn : 0 ≤ no) (hθ : 0 < cfg.skew_threshold) :
    QuoteGenerator.get_skew_adjustments cfg
      (QuoteGenerator.get_skew_ratio yes no) =
    InventoryTracker.get_adjustment_direction cfg.skew_threshold
      (mpOf yes no) := by
  have hsk : QuoteGenerator.get_skew_ratio yes no =
      (mpOf yes no).skew_ratio := rfl
  have h2 := ltB_inv_eq_is_no_heavy cfg.skew_threshold yes no hy hn hθ
  have h2' : (mpOf yes no).skew_ratio.ltB (1 / cfg.skew_threshold) =
      InventoryTracker.is_no_heavy cfg.skew_threshold (mpOf yes no) := by
    rw [← hsk]
    exact h2
  simp only [QuoteGenerator.get_skew_adjustments,
    InventoryTracker.get_adjustment_direction,
    InventoryTracker.is_yes_heavy, hsk, h2']

/-- Witness for C10 at the default config with 15 YES / 10 NO shares. -/
theorem skew_adjustments_agree_witness :
    QuoteGenerator.get_skew_adjustments defaultQGConfig
      (QuoteGenerator.get_skew_ratio 15 10) =
    InventoryTracker.get_adjustment_direction defaultQGConfig.skew_threshold
      (mpOf 15 10) :=
  skew_adjustments_agree defaultQGConfig 15 10 (by norm_num) (by norm_num)
    (by norm_num [defaultQGConfig])

/-! ### C9: `record_fill` updates exactly the matching side or no-ops -/

/-- C9: `record_fill` leaves every market's position unchanged when the
market is unknown or the fill is not a BUY; otherwise it updates exactly
the side matching the fill's outcome — adding the fill size to its quantity
and `size * price` to its total cost, keeping the side's identity fields and
the entire other side — and leaves every other market unchanged. -/
theorem record_fill_spec (positions : InventoryTracker.Positions)
    (condition_id : String) (fill : Fill) :
    (positions condition_id = none →
      ∀ k, InventoryTracker.record_fill positions condition_id fill k
        = positions k) ∧
    (fill.side ≠ Side.BUY →
      ∀ k, InventoryTracker.record_fill positions condition_id fill k
        = positions k) ∧
    (∀ pos, positions condition_id = some pos → fill.side = Side.BUY →
      (∀ k, k ≠ condition_id →
        InventoryTracker.record_fill positions condition_id fill k
          = positions k) ∧
      ∃ pos',
        InventoryTracker.record_fill positions condition_id fill condition_id
          = some pos' ∧
        pos'.condition_id = pos.condition_id ∧
        (fill.outcome = Outcome.YES →
          pos'.yes_position.quantity = pos.yes_position.quantity + fill.size ∧
          pos'.yes_position.total_cost
            = pos.yes_position.total_cost + fill.size * fill.price ∧
          pos'.yes_position.token_id = pos.yes_position.token_id ∧
          pos'.yes_position.outcome = pos.yes_position.outcome ∧
          pos'.no_position = pos.no_position) ∧
        (fill.outcome = Outcome.NO →
          pos'.no_position.quantity = pos.no_position.quantity + fill.size ∧
          pos'.no_position.total_cost
            = pos.no_position.total_cost + fill.size * fill.price ∧
          pos'.no_position.token_id = pos.no_position.token_id ∧
          pos'.no_position.outcome = pos.no_position.outcome ∧
          pos'.yes_position = pos.yes_position)) := by
  refine ⟨?_, ?_, ?_⟩
  · intro h k
    simp [InventoryTracker.record_fill, h]
  · intro h k
    simp only [InventoryTracker.record_fill]
    match hp : positions condition_id with
    | none => rfl
    | some pos => simp [h]
  · intro pos hp hside
    have hns : ¬ fill.side ≠ Side.BUY := by simp [hside]
    constructor
    · intro k hk
      simp only [InventoryTracker.record_fill, hp, hns, ite_false, if_false]
      simp [hk]
    · refine ⟨(if fill.outcome = Outcome.YES then
          { pos with
            yes_position := pos.yes_position.add_fill fill.size fill.price }
        else
          { pos with
            no_position := pos.no_position.add_fill fill.size fill.price }),
        ?_, ?_, ?_, ?_⟩
      · simp only [InventoryTracker.record_fill, hp, hns, ite_false, if_false]
        simp
      · cases hoc : fill.outcome <;> simp [hoc]
      · intro hoc
        simp [hoc, Position.add_fill]
      · intro hoc
        simp [hoc, Position.add_fill]

/-- A one-market positions map used by the witnesses. -/
def positions0 : InventoryTracker.Positions :=
  fun k => if k = "mkt" then
    some ⟨"mkt", ⟨"ty", .YES, 10, 4⟩, ⟨"tn", .NO, 5, 2⟩⟩ else none

/-- A BUY fill of 10 YES shares at 0.40. -/
def fill0 : Fill := ⟨"o1", "ty", .YES, .BUY, 2/5, 10, ⟨2026, 1, 2, 3, 4, 5, 0⟩, true⟩

/-- Witness for C9: recording a YES BUY fill on the known market leaves
another market key alone and bumps the YES side by `size` and
`size * price`. -/
theorem record_fill_spec_witness :
    InventoryTracker.record_fill positions0 "mkt" fill0 "other"
      = positions0 "other" ∧
    InventoryTracker.record_fill positions0 "mkt" fill0 "mkt"
      = some ⟨"mkt", ⟨"ty", .YES, 10 + 10, 4 + 10 * (2/5)⟩,
              ⟨"tn", .NO, 5, 2⟩⟩ := by
  obtain ⟨-, -, h3⟩ := record_fill_spec positions0 "mkt" fill0
  obtain ⟨hother, pos', heq, hcid, hyes, -⟩ :=
    h3 ⟨"mkt", ⟨"ty", .YES, 10, 4⟩, ⟨"tn", .NO, 5, 2⟩⟩ (by simp [positions0]) rfl
  obtain ⟨hq, hc, htok, hout, hno⟩ := hyes rfl
  have hpos' : pos' = ⟨"mkt", ⟨"ty", .YES, 10 + 10, 4 + 10 * (2/5)⟩,
      ⟨"tn", .NO, 5, 2⟩⟩ := by
    have heta : pos' = ⟨pos'.condition_id,
        ⟨pos'.yes_position.token_id, pos'.yes_position.outcome,
         pos'.yes_position.quantity, pos'.yes_position.total_cost⟩,
        pos'.no_position⟩ := rfl
    rw [heta, hcid, htok, hout, hq, hc, hno]
    norm_num [fill0]
  exact ⟨hother "other" (by decide), hpos' ▸ heq⟩

/-! ### C6: `price_change` level updates -/

/-- Counterexample to C6 as stated: inserting a fresh level at price
`0.12346` (size 1) into an empty side stores the `OrderBookLevel`-rounded
price `0.1235` (4 decimal places, from `__post_init__`), not the raw update
price, so the inserted level is not `(q, s)` itself. -/
theorem update_level_insert_rounds_counterexample :
    OrderBookManager.update_level [] (12346/100000) 1 false
      = [⟨1235/10000, 1⟩] ∧
    (1235/10000 : ℚ) ≠ 12346/100000 := by
  constructor
  · simp only [OrderBookManager.update_level, List.findIdx?_nil]
    norm_num
    simp only [OrderBookManager.sortSide, List.nil_append,
      List.mergeSort_singleton, OrderBookLevel.mk4]
    norm_num [pyRoundTo, pyRound]
  · norm_num

/-- C6 (amended): matching a level within strict tolerance `1e-4` of the
update price, `_update_level` removes exactly the first matching level when
`size ≤ 0` and overwrites only that level's size when `size > 0`; with no
matching level it is a no-op for `size ≤ 0`, and for `size > 0` it inserts
one new level carrying the constructor-rounded values
`(round(q, 4), round(s, 4))` — not the raw `(q, s)` — and leaves the side
sorted (ascending for asks, descending for bids). -/
theorem update_level_spec (levels : List OrderBookLevel) (price size : ℚ)
    (asc : Bool) :
    (∀ i, levels.findIdx? (OrderBookManager.price_matches price) = some i →
      ∀ l, levels[i]? = some l →
        |l.price - price| < 1/10000 ∧
        (size ≤ 0 →
          OrderBookManager.update_level levels price size asc
            = levels.eraseIdx i) ∧
        (¬ size ≤ 0 →
          OrderBookManager.update_level levels price size asc
            = levels.set i { l with size := size })) ∧
    (levels.findIdx? (OrderBookManager.price_matches price) = none →
      (∀ l ∈ levels, ¬ |l.price - price| < 1/10000) ∧
      (¬ size > 0 →
        OrderBookManager.update_level levels price size asc = levels) ∧
      (size > 0 →
        (OrderBookManager.update_level levels price size asc).Perm
          (levels ++ [OrderBookLevel.mk4 price size]) ∧
        (asc = true →
          (OrderBookManager.update_level levels price size asc).Pairwise
            (fun a b => a.price ≤ b.price)) ∧
        (asc = false →
          (OrderBookManager.update_level levels price size asc).Pairwise
            (fun a b => b.price ≤ a.price)))) := by
  constructor
  · intro i hi l hl
    obtain ⟨hlen, hp, -⟩ := List.findIdx?_eq_some_iff_getElem.mp hi
    have hl' : levels[i] = l := by
      rw [List.getElem?_eq_getElem hlen] at hl
      exact (Option.some.injEq _ _).mp hl
    refine ⟨?_, ?_, ?_⟩
    · subst hl'
      simpa [OrderBookManager.price_matches] using hp
    · intro hs
      simp only [OrderBookManager.update_level, hi, hl]
      rw [if_pos hs]
    · intro hs
      simp only [OrderBookManager.update_level, hi, hl]
      rw [if_neg hs]
  · intro hn
    refine ⟨?_, ?_, ?_⟩
    · intro l hl
      have := List.findIdx?_eq_none_iff.mp hn l hl
      simpa [OrderBookManager.price_matches] using this
    · intro hs
      simp only [OrderBookManager.update_level, hn]
      rw [if_neg hs]
    · intro hs
      simp only [OrderBookManager.update_level, hn]
      rw [if_pos hs]
      refine ⟨?_, ?_, ?_⟩
      · simp only [OrderBookManager.sortSide]
        cases asc <;> exact List.mergeSort_perm _ _
      · intro ha
        subst ha
        simp only [OrderBookManager.sortSide, if_true, ite_true]
        have hs := @List.sorted_mergeSort OrderBookLevel
          (fun a b => decide (a.price ≤ b.price))
          (fun a b c h1 h2 => by simp_all; linarith)
          (fun a b => by simp [Bool.or_eq_true]; exact le_total _ _)
          (levels ++ [OrderBookLevel.mk4 price size])
        exact hs.imp (fun h => by simpa using h)
      · intro ha
        subst ha
        simp only [OrderBookManager.sortSide, if_false, ite_false]
        have hs := @List.sorted_mergeSort OrderBookLevel
          (fun a b => decide (b.price ≤ a.price))
          (fun a b c h1 h2 => by simp_all; linarith)
          (fun a b => by simp [Bool.or_eq_true]; exact le_total _ _)
          (levels ++ [OrderBookLevel.mk4 price size])
        exact hs.imp (fun h => by simpa using h)

/-- Witness for C6 (scenario S8): deleting price 0.41 with size 0 from
bids `[(0.42, 5), (0.41, 3)]` removes exactly that level. -/
theorem update_level_spec_witness :
    OrderBookManager.update_level [⟨42/100, 5⟩, ⟨41/100, 3⟩] (41/100) 0 false
      = [⟨42/100, 5⟩] := by
  obtain ⟨h1, -⟩ :=
    update_level_spec [⟨42/100, 5⟩, ⟨41/100, 3⟩] (41/100) 0 false
  have hidx : ([⟨42/100, 5⟩, ⟨41/100, 3⟩] :
      List OrderBookLevel).findIdx? (OrderBookManager.price_matches (41/100))
      = some 1 := by
    simp [List.findIdx?_cons, OrderBookManager.price_matches]
    norm_num
    rw [abs_of_pos (show (0:ℚ) < 1/100 by norm_num)]
    norm_num
  obtain ⟨-, h2, -⟩ := h1 1 hidx ⟨41/100, 3⟩ rfl
  rw [h2 le_rfl]
  rfl

/-! ### C4: state persistence round trip -/

/-- Digit characters parse back to their value. -/
lemma digit?_digitChar (n : ℕ) (h : n < 10) :
    DateTime.digit? (digitChar n) = some n := by
  interval_cases n <;> decide

/-- Two-digit rendering parses back (values below 100). -/
lemma parse2_pad2 (n : ℕ) (h : n < 100) (rest : List Char) :
    DateTime.parse2 (pad2 n ++ rest) = some (n, rest) := by
  have h1 : n / 10 < 10 := by omega
  have h2 : n % 10 < 10 := by omega
  simp [pad2, DateTime.parse2, digit?_digitChar _ h1, digit?_digitChar _ h2]
  omega

/-- Four-digit rendering parses back (values below 10000). -/
lemma parse4_pad4 (n : ℕ) (h : n < 10000) (rest : List Char) :
    DateTime.parse4 (pad4 n ++ rest) = some (n, rest) := by
  have h1 : n / 1000 < 10 := by omega
  have h2 : n / 100 % 10 < 10 := by omega
  have h3 : n / 10 % 10 < 10 := by omega
  have h4 : n % 10 < 10 := by omega
  simp [pad4, DateTime.parse4, digit?_digitChar _ h1, digit?_digitChar _ h2,
    digit?_digitChar _ h3, digit?_digitChar _ h4]
  omega

/-- Six-digit rendering parses back (values below 10^6). -/
lemma parse6_pad6 (n : ℕ) (h : n < 1000000) (rest : List Char) :
    DateTime.parse6 (pad6 n ++ rest) = some (n, rest) := by
  have h1 : n / 100000 < 10 := by omega
  have h2 : n / 10000 % 10 < 10 := by omega
  have h3 : n / 1000 % 10 < 10 := by omega
  have h4 : n / 100 % 10 < 10 := by omega
  have h5 : n / 10 % 10 < 10 := by omega
  have h6 : n % 10 < 10 := by omega
  simp [pad6, DateTime.parse6, digit?_digitChar _ h1, digit?_digitChar _ h2,
    digit?_digitChar _ h3, digit?_digitChar _ h4, digit?_digitChar _ h5,
    digit?_digitChar _ h6]
  omega

/-- Expected separators are consumed. -/
lemma expect_cons (c : Char) (rest : List Char) :
    DateTime.expect c (c :: rest) = some rest := by
  simp [DateTime.expect]

set_option maxHeartbeats 2000000 in
/-- A valid datetime survives the `isoformat` / `fromisoformat` round
trip. -/
lemma fromisoformat_isoformat (d : DateTime) (h : d.Valid) :
    DateTime.fromisoformat d.isoformat = some d := by
  obtain ⟨y, mo, da, hh, mi, s, us⟩ := d
  obtain ⟨hy1, hy2, hm1, hm2, hd1, hd2, hhh, hmin, hsec, hus⟩ := h
  simp only at hy1 hy2 hm1 hm2 hd1 hd2 hhh hmin hsec hus
  have h4 : y < 10000 := by omega
  have hmo : mo < 100 := by omega
  have hda : da < 100 := by omega
  have hho : hh < 100 := by omega
  have hmi : mi < 100 := by omega
  have hse : s < 100 := by omega
  show DateTime.fromisoformatChars
    (DateTime.isoformatChars ⟨y, mo, da, hh, mi, s, us⟩) = some _
  by_cases h0 : us = 0
  · subst h0
    have hs' : DateTime.parse2 (pad2 s) = some (s, []) := by
      have := parse2_pad2 s hse []
      rwa [List.append_nil] at this
    simp only [DateTime.isoformatChars]
    simp only [if_true, ite_true, List.append_nil, List.append_assoc,
      List.cons_append, List.nil_append]
    simp only [DateTime.fromisoformatChars, parse4_pad4 y h4,
      Option.bind_eq_bind, Option.some_bind, expect_cons,
      parse2_pad2 mo hmo, parse2_pad2 da hda, parse2_pad2 hh hho,
      parse2_pad2 mi hmi, hs']
    rfl
  · have hs6 : DateTime.parse6 (pad6 us) = some (us, []) := by
      have := parse6_pad6 us hus []
      rwa [List.append_nil] at this
    simp only [DateTime.isoformatChars]
    rw [if_neg h0]
    simp only [List.append_assoc, List.cons_append, List.nil_append]
    simp only [DateTime.fromisoformatChars, parse4_pad4 y h4,
      Option.bind_eq_bind, Option.some_bind]
    simp only [expect_cons, Option.some_bind]
    simp only [parse2_pad2 mo hmo, Option.some_bind]
    simp only [expect_cons, Option.some_bind]
    simp only [parse2_pad2 da hda, Option.some_bind]
    simp only [expect_cons, Option.some_bind]
    simp only [parse2_pad2 hh hho, Option.some_bind]
    simp only [expect_cons, Option.some_bind]
    simp only [parse2_pad2 mi hmi, Option.some_bind]
    simp only [expect_cons, Option.some_bind]
    simp only [parse2_pad2 s hse, Option.some_bind]
    simp only [hs6]
    rfl

/-- Outcome enum values parse back. -/
lemma outcome_fromValue_value (o : Outcome) :
    Outcome.fromValue o.value = some o := by
  cases o <;> rfl

/-- Side enum values parse back. -/
lemma side_fromValue_value (s : Side) :
    Side.fromValue s.value = some s := by
  cases s <;> rfl

/-- `Position` survives its dict round trip. -/
lemma position_from_to_dict (p : Position) :
    Position.from_dict p.to_dict = some p := by
  simp [Position.to_dict, Position.from_dict, outcome_fromValue_value,
    Option.bind_eq_bind, Option.some_bind]

/-- `MarketPosition` survives its dict round trip. -/
lemma market_position_from_to_dict (mp : MarketPosition) :
    MarketPosition.from_dict mp.to_dict = some mp := by
  simp [MarketPosition.to_dict, MarketPosition.from_dict,
    position_from_to_dict, Option.bind_eq_bind, Option.some_bind]

/-- `Fill` survives its dict round trip when its timestamp is a real
datetime. -/
lemma fill_from_to_dict (f : Fill) (h : f.timestamp.Valid) :
    Fill.from_dict f.to_dict = some f := by
  simp [Fill.to_dict, Fill.from_dict, outcome_fromValue_value,
    side_fromValue_value, fromisoformat_isoformat f.timestamp h,
    Option.bind_eq_bind, Option.some_bind]

/-- A fallible comprehension over encoded elements succeeds elementwise. -/
lemma mapOption_map {α β : Type} (enc : α → β) (dec : β → Option α)
    (l : List α) (h : ∀ a ∈ l, dec (enc a) = some a) :
    mapOption dec (l.map enc) = some l := by
  induction l with
  | nil => rfl
  | cons a as ih =>
    have ha := h a (List.mem_cons_self a as)
    have has : ∀ x ∈ as, dec (enc x) = some x :=
      fun x hx => h x (List.mem_cons_of_mem a hx)
    simp [mapOption, ha, ih has, Option.bind_eq_bind, Option.some_bind]

/-- Validity of a persisted `BotState`: the fill list respects the cap of
1000 and all timestamps are real datetimes. -/
def BotState.Valid (s : BotState) : Prop :=
  s.fills.length ≤ 1000 ∧ s.last_updated.Valid ∧
  ∀ f ∈ s.fills, f.timestamp.Valid

/-- C4: for every valid `BotState`, deserialising the serialised form
restores the state exactly — positions, fills (including ISO-8601
timestamps and maker flags), running totals and `last_updated`; only the
in-memory `open_orders` map is reset to empty. -/
theorem bot_state_round_trip (s : BotState) (h : s.Valid) :
    BotState.from_dict s.to_dict = some { s with open_orders := [] } := by
  obtain ⟨hlen, hlu, hts⟩ := h
  have hdrop : s.fills.length - 1000 = 0 := by omega
  have hpos : mapOption
      (fun kv => (MarketPosition.from_dict kv.2).map (fun mp => (kv.1, mp)))
      (s.positions.map (fun kv => (kv.1, kv.2.to_dict))) = some s.positions := by
    apply mapOption_map
    intro a _
    simp [market_position_from_to_dict]
  have hfills : mapOption Fill.from_dict
      (List.drop (s.fills.length - 1000) (s.fills.map Fill.to_dict))
      = some s.fills := by
    rw [hdrop, List.drop_zero]
    exact mapOption_map Fill.to_dict Fill.from_dict s.fills
      (fun f hf => fill_from_to_dict f (hts f hf))
  simp [BotState.to_dict, BotState.from_dict, hpos, hfills,
    fromisoformat_isoformat s.last_updated hlu,
    Option.bind_eq_bind, Option.some_bind]

/-- A small concrete bot state with one market, one fill, and one open
order, used by the witnesses. -/
def state0 : BotState :=
  { positions := [("c1", ⟨"c1", ⟨"ty", .YES, 10, 4⟩, ⟨"tn", .NO, 5, 2⟩⟩)],
    open_orders := [("o9", ⟨"ty", .YES, .BUY, 1/2, 5, some "o9"⟩)],
    fills := [⟨"o1", "ty", .YES, .BUY, 2/5, 10, ⟨2026, 10, 12, 3, 45, 6, 123456⟩, true⟩],
    total_maker_volume := 4,
    total_rebates_estimate := 1/250,
    last_updated := ⟨2026, 1, 2, 0, 0, 0, 0⟩ }

/-- Witness for C4 on the concrete state. -/
theorem bot_state_round_trip_witness :
    BotState.from_dict state0.to_dict = some { state0 with open_orders := [] } :=
  bot_state_round_trip state0 ⟨by decide, by decide, by decide⟩

/-! ### C5: serialisation of `open_orders` -/

/-- Counterexample to C5 as stated: `to_dict` serialises the in-memory
`open_orders` map entrywise via `to_order_args` (it does not write an empty
object), so a state holding one open order produces a non-empty
`open_orders` value in the persisted document. -/
theorem to_dict_open_orders_counterexample :
    (BotState.to_dict state0).open_orders
      = [("o9", ⟨"ty", 1/2, 5, "BUY"⟩)] ∧
    (BotState.to_dict state0).open_orders ≠ [] := by
  have h : (BotState.to_dict state0).open_orders
      = [("o9", ⟨"ty", 1/2, 5, "BUY"⟩)] := rfl
  exact ⟨h, by rw [h]; exact List.cons_ne_nil _ _⟩

/-- C5 (amended): `to_dict` writes `open_orders` as the entrywise
`to_order_args` image of the in-memory map — empty exactly when the
in-memory map is empty — while `from_dict` always restores `open_orders`
empty (open orders are reconstructed from the exchange). -/
theorem to_dict_open_orders_spec (s : BotState) :
    (BotState.to_dict s).open_orders
      = s.open_orders.map (fun kv => (kv.1, kv.2.to_order_args)) ∧
    ((BotState.to_dict s).open_orders = [] ↔ s.open_orders = []) ∧
    (∀ d s', BotState.from_dict d = some s' → s'.open_orders = []) := by
  refine ⟨rfl, ?_, ?_⟩
  · simp [BotState.to_dict]
  · intro d s' h
    simp only [BotState.from_dict, Option.bind_eq_bind, Option.bind_eq_some,
      Option.pure_def, Option.some.injEq] at h
    obtain ⟨ps, -, fs, -, lu, -, h⟩ := h
    exact h ▸ rfl

/-- Witness for C5 (amended) on the concrete state with one open order. -/
theorem to_dict_open_orders_spec_witness :
    (BotState.to_dict state0).open_orders
      = state0.open_orders.map (fun kv => (kv.1, kv.2.to_order_args)) ∧
    ({ state0 with open_orders := [] } : BotState).open_orders = [] :=
  ⟨(to_dict_open_orders_spec state0).1,
   (to_dict_open_orders_spec state0).2.2 state0.to_dict
     { state0 with open_orders := [] } rfl⟩

end Polymarket
